import Mathlib

/-!
Verification of the index-text parser of `index_converter.py`.

The embedding below translates the two core functions of the repository —
`extract_text`'s marker-splitting step (lines 74–90) and `parse_index`
(lines 93–127) together with `format_pages` (lines 129–132) — into Lean.
Python strings become Lean `String`s; the string primitives the source
relies on (`str.strip`, `str.split`, `str.rstrip`, `str.endswith`,
`str.splitlines`, the regex `(\d+)\s*:\s*(\S+)` used with `re.match`)
are spelled out as list-of-characters functions so that every step is
kernel-computable.
-/

/-- Python `str.strip()`: remove leading and trailing whitespace. -/
def py_strip (s : String) : String :=
  String.mk (((s.data.dropWhile Char.isWhitespace).reverse.dropWhile Char.isWhitespace).reverse)

/-- Python truthiness/`str.isalpha()`: nonempty and every character alphabetic. -/
def pyIsAlpha (s : String) : Bool :=
  !s.data.isEmpty && s.data.all Char.isAlpha

/-- Python `s.endswith(",")`: the last character is a comma. -/
def ends_with_comma (s : String) : Bool :=
  match s.data.getLast? with
  | some c => c = ','
  | none => false

/-- Python `s.rstrip(",")`: remove every trailing comma. -/
def rstrip_commas (s : String) : String :=
  String.mk ((s.data.reverse.dropWhile (fun c => c = ',')).reverse)

/-- Auxiliary character-level splitter for Python `s.split(",")`. -/
def split_commas : List Char → List (List Char)
  | [] => [[]]
  | c :: rest =>
    match split_commas rest with
    | [] => [[]]
    | h :: t => if c = ',' then [] :: h :: t else (c :: h) :: t

/-- Python `s.split(",")` (keeps empty pieces; `"" ↦ [""]`). -/
def py_split_comma (s : String) : List String :=
  (split_commas s.data).map String.mk

/-- Python `s.split(None, 1)`: skip leading whitespace, take the first
whitespace-free token, skip the separating run, and keep the remainder
verbatim; an all-whitespace string gives `[]`, a one-token string gives a
singleton. -/
def py_split_none1 (s : String) : List String :=
  let cs := s.data.dropWhile Char.isWhitespace
  if cs.isEmpty then []
  else
    let tok := cs.takeWhile (fun c => !c.isWhitespace)
    let rest := (cs.dropWhile (fun c => !c.isWhitespace)).dropWhile Char.isWhitespace
    if rest.isEmpty then [String.mk tok] else [String.mk tok, String.mk rest]

/-- Line 109 of the source:
`parts = line.split("\t", 1) if "\t" in line else line.split(None, 1)`. -/
def split_parts (line : String) : List String :=
  if '\t' ∈ line.data then
    [String.mk (line.data.takeWhile (fun c => c ≠ '\t')),
     String.mk ((line.data.dropWhile (fun c => c ≠ '\t')).drop 1)]
  else py_split_none1 line

/-- Numeric value of a run of ASCII digits (Python `int` on the regex group). -/
def digits_to_nat (cs : List Char) : Nat :=
  cs.foldl (fun acc c => acc * 10 + (c.toNat - 48)) 0

/-- Line 97's regex `(\d+)\s*:\s*(\S+)` applied with `re.match` (anchored at
the start, rest of the string unconstrained): returns the book number and the
page string on success. -/
def ref_pattern_match (s : String) : Option (Nat × String) :=
  let cs := s.data
  let digits := cs.takeWhile Char.isDigit
  if digits.isEmpty then none
  else
    match (cs.dropWhile Char.isDigit).dropWhile Char.isWhitespace with
    | ':' :: rest2 =>
      let page := (rest2.dropWhile Char.isWhitespace).takeWhile (fun c => !c.isWhitespace)
      if page.isEmpty then none
      else some (digits_to_nat digits, String.mk page)
    | _ => none

/-- `format_pages` (lines 129–132): empty list to empty string, otherwise the
comma-and-space join wrapped in one pair of double quotes. -/
def format_pages (pages : List String) : String :=
  if pages = [] then "" else "\"" ++ String.intercalate ", " pages ++ "\""

/-- The six page lists (`book_pages = {i: [] for i in range(1, 7)}`), with the
dictionary keyed 1–6 represented as a list indexed 0–5. -/
def initBooks : List (List String) := [[], [], [], [], [], []]

/-- The parser state of `parse_index`: rows emitted so far, the in-progress
subject, and the six per-book page lists. -/
structure ParseState where
  data : List (List String)
  current_subject : String
  book_pages : List (List String)
deriving Repr, DecidableEq

/-- State at entry of `parse_index` (lines 94–96). -/
def initState : ParseState := ⟨[], "", initBooks⟩

/-- One emitted row: `[current_subject] + [format_pages(book_pages[i]) for i in range(1, 7)]`. -/
def mkRow (subject : String) (bp : List (List String)) : List String :=
  subject :: bp.map format_pages

/-- Lines 114–120, one reference token: trim it, match the regex, and when the
book number is in 1–6 append the page string to that book's list. -/
def add_ref (bp : List (List String)) (ref : String) : List (List String) :=
  match ref_pattern_match (py_strip ref) with
  | some (book, pages) =>
      if 1 ≤ book ∧ book ≤ 6 then bp.set (book - 1) (bp.getD (book - 1) [] ++ [pages])
      else bp
  | none => bp

/-- Lines 111–112: the subject is captured from the first part only when no
subject is in progress and the line has no trailing comma. -/
def capture_subject (cs : String) (line : String) (first : String) : String :=
  if cs = "" ∧ ends_with_comma line = false then py_strip first else cs

/-- Lines 108–124, handling of a non-divider line (already stripped): split
into parts; when there are two parts, capture the subject and fold the
reference tokens into the page lists; finally flush when the line has no
trailing comma and a subject is in progress. -/
def content_step (st : ParseState) (line : String) : ParseState :=
  let parts := split_parts line
  let st1 : ParseState :=
    if parts.length > 1 then
      ⟨st.data,
       capture_subject st.current_subject line (parts.getD 0 ""),
       ((py_split_comma (rstrip_commas (parts.getD 1 ""))).foldl add_ref st.book_pages)⟩
    else st
  if ends_with_comma line = false ∧ st1.current_subject ≠ "" then
    ⟨st1.data ++ [mkRow st1.current_subject st1.book_pages], "", initBooks⟩
  else st1

/-- Lines 98–124, one iteration of the loop of `parse_index`: strip the line,
skip it when empty, take the divider branch for a single alphabetic character
(flush any pending subject, emit the divider row, reset), otherwise run the
content-line handling. -/
def parse_line (st : ParseState) (rawLine : String) : ParseState :=
  let line := py_strip rawLine
  if line = "" then st
  else if line.length = 1 ∧ pyIsAlpha line = true then
    ⟨(if st.current_subject ≠ "" then st.data ++ [mkRow st.current_subject st.book_pages]
      else st.data) ++ [line :: List.replicate 6 ""],
     "", initBooks⟩
  else content_step st line

/-- Lines 125–126: the final flush fires exactly when a subject is still in
progress. -/
def flush_final (st : ParseState) : List (List String) :=
  if st.current_subject ≠ "" then st.data ++ [mkRow st.current_subject st.book_pages]
  else st.data

/-- `parse_index` (lines 93–127). -/
def parse_index (lines : List String) : List (List String) :=
  flush_final (List.foldl parse_line initState lines)

/-- The marker string of `extract_text` (line 76). -/
def marker : String :=
  "Index\nNote: The numbers indicate the book number, followed by the page number."

/-- Python `full_text.split(sep, 1)` restricted to its use on lines 81/85/89:
the pieces before and strictly after the first occurrence of `sep`, or `none`
when `sep` does not occur. -/
def firstSplit (sep : List Char) : List Char → Option (List Char × List Char)
  | [] => if sep.isEmpty then some ([], []) else none
  | c :: rest =>
    if sep.isPrefixOf (c :: rest) then some ([], (c :: rest).drop sep.length)
    else (firstSplit sep rest).map (fun p => (c :: p.1, p.2))

/-- Python `str.splitlines` on `\n`, `\r` and `\r\n` line ends: no trailing
empty line, and the empty string gives `[]`. -/
def splitlines_aux : List Char → List Char → List (List Char)
  | [], acc => if acc.isEmpty then [] else [acc.reverse]
  | '\r' :: '\n' :: rest, acc => acc.reverse :: splitlines_aux rest []
  | '\n' :: rest, acc => acc.reverse :: splitlines_aux rest []
  | '\r' :: rest, acc => acc.reverse :: splitlines_aux rest []
  | c :: rest, acc => splitlines_aux rest (c :: acc)

/-- Python `text.splitlines()`. -/
def py_splitlines (s : String) : List String :=
  (splitlines_aux s.data []).map String.mk

/-- The marker-splitting step shared by the three branches of `extract_text`
(lines 81, 85, 89–90):
`text = full_text.split(marker, 1)[1].strip() if marker in full_text else ""`
followed by `return text.splitlines()`. -/
def split_at_marker (full_text : String) : List String :=
  let text : String :=
    match firstSplit marker.data full_text.data with
    | some p => py_strip (String.mk p.2)
    | none => ""
  py_splitlines text

/-- Sanity check: the spec's end-to-end scenario, which the code does satisfy. -/
theorem sanity_end_to_end : parse_index ["A", "Apples\t1:5,1:6", "Bananas\t2:9"] =
    [["A", "", "", "", "", "", ""],
     ["Apples", "\"5, 6\"", "", "", "", "", ""],
     ["Bananas", "", "\"9\"", "", "", "", ""]] := by decide

/-- C1 counterexample: on `["Apples\t1:10, 2:20,", "\t3:30"]` the parser does
NOT yield one row for "Apples" with book 1 = ["10"], book 2 = ["20"],
book 3 = ["30"]. -/
theorem c1_counterexample :
    ¬ parse_index ["Apples\t1:10, 2:20,", "\t3:30"] =
        [mkRow "Apples" [["10"], ["20"], ["30"], [], [], []]] := by decide

/-- C1 (amended): on `["Apples\t1:10, 2:20,", "\t3:30"]` the parser yields NO
rows. The trailing comma on the first line does suppress the flush, but it
also prevents subject capture (line 111's condition), so pages "10" and "20"
accumulate with no subject; the second line strips to the single token
"3:30", which contributes nothing; and everything is discarded at the end. -/
theorem c1_amended_empty_output :
    parse_index ["Apples\t1:10, 2:20,", "\t3:30"] = [] ∧
    (List.foldl parse_line initState ["Apples\t1:10, 2:20,", "\t3:30"]).current_subject = "" ∧
    (List.foldl parse_line initState ["Apples\t1:10, 2:20,", "\t3:30"]).book_pages =
      [["10"], ["20"], [], [], [], []] := by
  refine ⟨by decide, by decide, by decide⟩

/-- C2 counterexample: after the single line `"Apples\t1:10,"` the subject is
empty while book 1's page list is not — the accumulator is neither fully
empty nor "has a subject". -/
theorem c2_counterexample :
    (List.foldl parse_line initState ["Apples\t1:10,"]).current_subject = "" ∧
    (List.foldl parse_line initState ["Apples\t1:10,"]).book_pages ≠ initBooks := by
  refine ⟨by decide, by decide⟩

/-- A content line either leaves the emitted rows unchanged or leaves the
accumulator fully reset. -/
theorem content_step_cases (st : ParseState) (line : String) :
    (content_step st line).data = st.data ∨
    ((content_step st line).current_subject = "" ∧
     (content_step st line).book_pages = initBooks) := by
  simp only [content_step]
  split <;> split
  all_goals first
    | exact Or.inr ⟨rfl, rfl⟩
    | exact Or.inl rfl

/-- C2 (amended): the subject and the six page lists are always reset
together — any line that emits a row leaves the accumulator fully reset
(empty subject and six empty page lists); the state is never partially
reset. (But an empty subject does not imply empty page lists: continuation
lines before subject capture accumulate pages with no subject.) -/
theorem c2_reset_together (st : ParseState) (line : String)
    (h : (parse_line st line).data ≠ st.data) :
    (parse_line st line).current_subject = "" ∧
    (parse_line st line).book_pages = initBooks := by
  by_cases h1 : py_strip line = ""
  · simp [parse_line, h1] at h
  · by_cases h2 : (py_strip line).length = 1 ∧ pyIsAlpha (py_strip line) = true
    · simp [parse_line, h1, h2]
    · simp only [parse_line, h1, h2, if_false, ite_false] at h ⊢
      rcases content_step_cases st (py_strip line) with hc | hc
      · exact absurd hc h
      · exact hc

/-- C2 witness: the divider line "A" appends a row, and afterwards the
accumulator is fully reset. -/
theorem c2_reset_together_witness :
    (parse_line initState "A").data ≠ initState.data ∧
    (parse_line initState "A").current_subject = "" ∧
    (parse_line initState "A").book_pages = initBooks :=
  ⟨by decide, c2_reset_together initState "A" (by decide)⟩

/-- C3: a line whose stripped form is exactly one alphabetic character takes
the divider branch — any in-progress subject is flushed first, then a divider
row (that character, six empty book fields) is emitted and the accumulator is
reset; stripped lines of length greater than one, or of length one but not
alphabetic, instead take the ordinary content branch and never produce a
divider row. -/
theorem c3_divider_lines (st : ParseState) (line : String) :
    ((py_strip line).length = 1 → pyIsAlpha (py_strip line) = true →
      parse_line st line =
        ⟨(if st.current_subject ≠ "" then st.data ++ [mkRow st.current_subject st.book_pages]
          else st.data) ++ [py_strip line :: List.replicate 6 ""], "", initBooks⟩) ∧
    (1 < (py_strip line).length ∨
        ((py_strip line).length = 1 ∧ pyIsAlpha (py_strip line) = false) →
      parse_line st line = content_step st (py_strip line)) := by
  constructor
  · intro h1 h2
    have hne : py_strip line ≠ "" := by
      intro he; rw [he] at h1; exact absurd h1 (by decide)
    simp [parse_line, hne, h1, h2]
  · intro h
    have hne : py_strip line ≠ "" := by
      intro he
      rcases h with h | ⟨h1, _⟩
      · rw [he] at h; exact absurd h (by decide)
      · rw [he] at h1; exact absurd h1 (by decide)
    have hd : ¬((py_strip line).length = 1 ∧ pyIsAlpha (py_strip line) = true) := by
      rintro ⟨ha, hb⟩
      rcases h with h | ⟨_, h2⟩
      · omega
      · rw [h2] at hb; exact absurd hb (by decide)
    simp [parse_line, hne, hd]

/-- C3 witness: `" A "` (stripping to the single letter "A") emits a divider
row from the empty state, and `"AB"` goes through the content branch. -/
theorem c3_divider_lines_witness :
    parse_line initState " A " = ⟨[["A", "", "", "", "", "", ""]], "", initBooks⟩ ∧
    parse_line initState "AB" = content_step initState "AB" := by
  constructor
  · have h := (c3_divider_lines initState " A ").1 (by decide) (by decide)
    rw [h]; decide
  · have h := (c3_divider_lines initState "AB").2 (Or.inl (by decide))
    rw [h]; decide

/-- C4: a reference token whose trimmed form matches the pattern
`<integer><ws?>:<ws?><non-ws token>` with book number in 1–6 has its page
string appended verbatim at the end of that book's list (order and
duplicates preserved); a matching token with book number outside 1–6, or a
non-matching token, leaves the page lists unchanged (silently discarded,
`add_ref` being total never raises). -/
theorem c4_reference_tokens (bp : List (List String)) (ref : String) :
    (∀ b p, ref_pattern_match (py_strip ref) = some (b, p) → 1 ≤ b ∧ b ≤ 6 →
      add_ref bp ref = bp.set (b - 1) (bp.getD (b - 1) [] ++ [p])) ∧
    (∀ b p, ref_pattern_match (py_strip ref) = some (b, p) → ¬(1 ≤ b ∧ b ≤ 6) →
      add_ref bp ref = bp) ∧
    (ref_pattern_match (py_strip ref) = none → add_ref bp ref = bp) := by
  refine ⟨?_, ?_, ?_⟩
  · intro b p hm hr
    simp [add_ref, hm, hr]
  · intro b p hm hr
    simp [add_ref, hm, hr]
  · intro hm
    simp [add_ref, hm]

/-- C4 witness: "3:45" is appended to book 3's list, "3 : 45a" matches with
flexible spacing, "7:12" (book out of range) and "abc" (no match) are
discarded. -/
theorem c4_reference_tokens_witness :
    add_ref initBooks "3:45" = initBooks.set 2 (initBooks.getD 2 [] ++ ["45"]) ∧
    add_ref initBooks "3 : 45a" = initBooks.set 2 (initBooks.getD 2 [] ++ ["45a"]) ∧
    add_ref initBooks "7:12" = initBooks ∧
    add_ref initBooks "abc" = initBooks :=
  ⟨(c4_reference_tokens initBooks "3:45").1 3 "45" (by decide) (by decide),
   (c4_reference_tokens initBooks "3 : 45a").1 3 "45a" (by decide) (by decide),
   (c4_reference_tokens initBooks "7:12").2.1 7 "12" (by decide) (by decide),
   (c4_reference_tokens initBooks "abc").2.2 (by decide)⟩

/-- C5 counterexample: the single-token content line "Apples" has no subject
in progress and no trailing comma, yet does NOT set the subject — the capture
branch additionally requires the line to split into two parts. Had the
subject been set, the no-comma flush would have emitted an "Apples" row; the
state is in fact unchanged and the parse of `["Apples"]` emits nothing. -/
theorem c5_counterexample :
    ends_with_comma "Apples" = false ∧
    parse_line initState "Apples" = initState ∧
    parse_index ["Apples"] = [] := by
  refine ⟨by decide, by decide, by decide⟩

/-- C5 (amended): on a content line that splits into two parts, the subject
is captured (set to the trimmed first part) exactly when
no subject is in progress and the line has no trailing comma; a line ending
in a comma never sets the subject even when none has been captured, so its
references can be misattributed to a subject captured from a later line (the
concrete conjunct: "x\t1:10," followed by "Bananas\t2:9" puts page "10"
under "Bananas"). -/
theorem c5_subject_capture_rule (cs line first : String) :
    (cs = "" → ends_with_comma line = false → capture_subject cs line first = py_strip first) ∧
    (ends_with_comma line = true → capture_subject cs line first = cs) ∧
    (cs ≠ "" → capture_subject cs line first = cs) ∧
    parse_index ["x\t1:10,", "Bananas\t2:9"] =
      [mkRow "Bananas" [["10"], ["9"], [], [], [], []]] := by
  refine ⟨?_, ?_, ?_, by decide⟩
  · intro h1 h2
    simp [capture_subject, h1, h2]
  · intro h
    simp [capture_subject, h]
  · intro h
    simp [capture_subject, h]

/-- C5 witness: the three capture cases at concrete inputs. -/
theorem c5_subject_capture_rule_witness :
    capture_subject "" "Pears\t1:2" "Pears" = "Pears" ∧
    capture_subject "" "x\t1:10," "x" = "" ∧
    capture_subject "Apples" "Pears\t1:2" "Pears" = "Apples" := by
  refine ⟨?_, ?_, ?_⟩
  · exact ((c5_subject_capture_rule "" "Pears\t1:2" "Pears").1 rfl (by decide)).trans (by decide)
  · exact (c5_subject_capture_rule "" "x\t1:10," "x").2.1 (by decide)
  · exact (c5_subject_capture_rule "Apples" "Pears\t1:2" "Pears").2.2.1 (by decide)

/-- C8: `parse_index` is deterministic and safely re-invocable — two calls on
the same line sequence give the same rows, and every invocation runs from
the fixed initial state whose subject is empty and whose six page lists are
empty (no state survives between calls). -/
theorem c8_deterministic (lines : List String) :
    parse_index lines = parse_index lines ∧
    parse_index lines = flush_final (List.foldl parse_line initState lines) ∧
    initState.current_subject = "" ∧ initState.book_pages = [[], [], [], [], [], []] :=
  ⟨rfl, rfl, rfl, rfl⟩

/-- C10: at end of input the final flush emits a row exactly when the subject
is non-empty; when the subject is empty the accumulated page lists are
dropped — concretely, `["Apples\t1:10,"]` accumulates page "10" for book 1
yet produces no row at all. -/
theorem c10_final_flush (lines : List String) :
    parse_index lines =
      (List.foldl parse_line initState lines).data ++
        (if (List.foldl parse_line initState lines).current_subject = "" then []
         else [mkRow (List.foldl parse_line initState lines).current_subject
                 (List.foldl parse_line initState lines).book_pages]) ∧
    parse_index ["Apples\t1:10,"] = [] ∧
    (List.foldl parse_line initState ["Apples\t1:10,"]).book_pages =
      [["10"], [], [], [], [], []] := by
  refine ⟨?_, by decide, by decide⟩
  unfold parse_index flush_final
  by_cases h : (List.foldl parse_line initState lines).current_subject = "" <;> simp [h]

theorem string_mk_data (s : String) : String.mk s.data = s := by cases s; rfl

theorem dropWhile_all_false {α : Type} {p : α → Bool} {l : List α}
    (h : ∀ c ∈ l, p c = false) : l.dropWhile p = l := by
  cases l with
  | nil => rfl
  | cons c rest => rw [List.dropWhile_cons, h c (List.mem_cons_self c rest)]; simp

theorem dropWhile_all_true {α : Type} {p : α → Bool} {l : List α}
    (h : ∀ c ∈ l, p c = true) : l.dropWhile p = [] := by
  induction l with
  | nil => rfl
  | cons c rest ih =>
    rw [List.dropWhile_cons, h c (List.mem_cons_self c rest)]
    simpa using ih (fun x hx => h x (List.mem_cons_of_mem c hx))

/-- A nonempty, whitespace-free string is a single token for `split(None, 1)`. -/
theorem py_split_none1_single (t : String) (hne : t ≠ "")
    (h : ∀ c ∈ t.data, c.isWhitespace = false) : py_split_none1 t = [t] := by
  have hdata : t.data ≠ [] := fun he => hne (String.ext (he.trans rfl))
  have h1 : t.data.dropWhile Char.isWhitespace = t.data := dropWhile_all_false h
  have h2 : t.data.takeWhile (fun c => !c.isWhitespace) = t.data :=
    List.takeWhile_eq_self_iff.mpr (fun c hc => by simp [h c hc])
  have h3 : t.data.dropWhile (fun c => !c.isWhitespace) = [] :=
    dropWhile_all_true (fun c hc => by simp [h c hc])
  have h4 : t.data.isEmpty = false := by simp [hdata]
  simp only [py_split_none1, h1, h2, h3, h4, List.dropWhile_nil, List.isEmpty_nil,
    Bool.false_eq_true, if_false, string_mk_data]
  simp [string_mk_data]

/-- C9: a non-empty, non-divider line with no tab and no internal whitespace
(a single token after stripping) never sets the subject and accumulates no
references; its only possible effect is to flush an in-progress subject when
it lacks a trailing comma, and with no subject in progress it leaves the
state unchanged and emits nothing. -/
theorem c9_single_token_lines (st : ParseState) (line : String)
    (hne : py_strip line ≠ "")
    (hnd : ¬((py_strip line).length = 1 ∧ pyIsAlpha (py_strip line) = true))
    (hws : ∀ c ∈ (py_strip line).data, c.isWhitespace = false) :
    parse_line st line =
      if ends_with_comma (py_strip line) = false ∧ st.current_subject ≠ "" then
        ⟨st.data ++ [mkRow st.current_subject st.book_pages], "", initBooks⟩
      else st := by
  have hnotab : ¬ '\t' ∈ (py_strip line).data := fun hm => by
    have := hws '\t' hm
    exact absurd this (by decide)
  have hp : split_parts (py_strip line) = [py_strip line] := by
    rw [split_parts, if_neg hnotab]
    exact py_split_none1_single _ hne hws
  simp [parse_line, content_step, hne, hnd, hp]

/-- C9 witness: "3:30" flushes a pending "Apples" subject, and from the empty
state it changes nothing. -/
theorem c9_single_token_lines_witness :
    parse_line ⟨[], "Apples", [["5"], [], [], [], [], []]⟩ "3:30" =
      ⟨[["Apples", "\"5\"", "", "", "", "", ""]], "", initBooks⟩ ∧
    parse_line initState "3:30" = initState := by
  constructor
  · have h := c9_single_token_lines ⟨[], "Apples", [["5"], [], [], [], [], []]⟩ "3:30"
      (by decide) (by decide) (by decide)
    rw [h]; decide
  · have h := c9_single_token_lines initState "3:30" (by decide) (by decide) (by decide)
    rw [h]; decide

/-- When the separator occurs nowhere in the string, `firstSplit` finds
nothing. -/
theorem firstSplit_none_of (sep s : List Char) (hsep : sep ≠ [])
    (h : ∀ i < s.length, sep.isPrefixOf (s.drop i) = false) :
    firstSplit sep s = none := by
  induction s with
  | nil => simp [firstSplit, List.isEmpty_iff, hsep]
  | cons c rest ih =>
    have h0 : sep.isPrefixOf (c :: rest) = false := by simpa using h 0 (by simp)
    simp only [firstSplit]
    rw [if_neg (by simp [h0])]
    rw [ih (fun i hi => by
      simpa [List.drop_succ_cons] using h (i + 1) (by simp only [List.length_cons]; omega))]
    rfl

/-- When the separator's first occurrence begins right after `pre`,
`firstSplit` returns `pre` and the remainder after that occurrence. -/
theorem firstSplit_first_occurrence (sep pre post : List Char) (hsep : sep ≠ [])
    (h : ∀ i < pre.length, sep.isPrefixOf ((pre ++ (sep ++ post)).drop i) = false) :
    firstSplit sep (pre ++ (sep ++ post)) = some (pre, post) := by
  induction pre with
  | nil =>
    simp only [List.nil_append]
    rcases hs : sep with _ | ⟨d, ds⟩
    · exact absurd hs hsep
    · subst hs
      show firstSplit (d :: ds) (d :: (ds ++ post)) = some ([], post)
      simp only [firstSplit]
      rw [if_pos]
      · have hdrop : (d :: (ds ++ post)).drop (d :: ds).length = post := by
          show ((d :: ds) ++ post).drop (d :: ds).length = post
          exact List.drop_left _ _
        rw [hdrop]
      · rw [ List.isPrefixOf_iff_prefix]
        exact List.prefix_append _ _
  | cons c pre ih =>
    have h0 : sep.isPrefixOf (c :: (pre ++ (sep ++ post))) = false := by
      simpa using h 0 (by simp)
    show firstSplit sep (c :: (pre ++ (sep ++ post))) = some (c :: pre, post)
    simp only [firstSplit]
    rw [if_neg (by simp [h0])]
    rw [ih (fun i hi => by
      simpa [List.drop_succ_cons] using h (i + 1) (by simp only [List.length_cons]; omega))]
    rfl

/-- C6: for a text in which the marker's first occurrence begins right after
`pre` (no occurrence starts earlier), the splitter returns exactly the text
strictly after that occurrence, stripped of surrounding whitespace and split
into lines. -/
theorem c6_marker_split_after_first (pre post : List Char)
    (h : ∀ i < pre.length,
      marker.data.isPrefixOf ((pre ++ (marker.data ++ post)).drop i) = false) :
    split_at_marker (String.mk (pre ++ (marker.data ++ post))) =
      py_splitlines (py_strip (String.mk post)) := by
  have hm : marker.data ≠ [] := by decide
  simp only [split_at_marker]
  rw [firstSplit_first_occurrence marker.data pre post hm h]

/-- C6 witness: with one junk character before the marker and
`" \nApples\t1:5 "` after it, the splitter returns the stripped content after
the marker, split into lines. -/
theorem c6_marker_split_after_first_witness :
    split_at_marker (String.mk ("x".data ++ (marker.data ++ " \nApples\t1:5 ".data))) =
      py_splitlines (py_strip (String.mk " \nApples\t1:5 ".data)) ∧
    py_splitlines (py_strip (String.mk " \nApples\t1:5 ".data)) = ["Apples\t1:5"] :=
  ⟨c6_marker_split_after_first "x".data " \nApples\t1:5 ".data (by decide), by decide⟩

/-- C7: for a text in which the marker occurs nowhere, the splitter returns
the empty line sequence (the sole "no index data found" signal; the function
is total and never raises). -/
theorem c7_marker_absent_empty (s : String)
    (h : ∀ i < s.data.length, marker.data.isPrefixOf (s.data.drop i) = false) :
    split_at_marker s = [] := by
  simp only [split_at_marker]
  rw [firstSplit_none_of marker.data s.data (by decide) h]
  rfl

/-- C7 witness: "hello" contains no marker, so the splitter returns `[]`. -/
theorem c7_marker_absent_empty_witness : split_at_marker "hello" = [] :=
  c7_marker_absent_empty "hello" (by decide)
